import Mathlib

/-!
Shallow embedding of the GolfGod betting core
(src/backtesting/strategy.py, src/backtesting/roi_calculator.py,
src/collectors/odds_importer.py) over exact rational arithmetic,
with theorems checking the specification's claims about it.
-/

namespace GolfGod

/-! ### BettingStrategy.calculate_edge (strategy.py lines 51-64) -/

/-- Embedding of `BettingStrategy.calculate_edge`: returns 0 when
`market_prob <= 0`, otherwise `(our_prob - market_prob) / market_prob`. -/
def calculate_edge (our_prob market_prob : ℚ) : ℚ :=
  if market_prob ≤ 0 then 0
  else (our_prob - market_prob) / market_prob

/-! ### BettingStrategy.kelly_bet_size (strategy.py lines 66-92) -/

/-- Embedding of `BettingStrategy.kelly_bet_size`.  The instance fields
`self.kelly_fraction` and `self.max_bet_pct` are explicit arguments.
Returns 0 when `edge <= 0 or odds <= 1`; otherwise sets `b = odds - 1`,
`p = (edge + 1) / (b + 1)`, `q = 1 - p`, `kelly = (p*b - q)/b`,
scales by `kelly_fraction` and caps at `max_bet_pct`. -/
def kelly_bet_size (kelly_fraction max_bet_pct edge odds : ℚ) : ℚ :=
  if edge ≤ 0 ∨ odds ≤ 1 then 0
  else
    let b := odds - 1
    let p := (edge + 1) / (b + 1)
    let q := 1 - p
    let kelly := (p * b - q) / b
    let kelly2 := kelly * kelly_fraction
    min kelly2 max_bet_pct

/-- The full (unscaled) Kelly fraction computed inside `kelly_bet_size`
for the positive-edge branch: `b = odds - 1`, `p = (edge+1)/(b+1)`,
`q = 1 - p`, result `(p*b - q)/b`. -/
def full_kelly (edge odds : ℚ) : ℚ :=
  let b := odds - 1
  let p := (edge + 1) / (b + 1)
  let q := 1 - p
  (p * b - q) / b

/-! ### BettingStrategy.place_bet (strategy.py lines 94-135) -/

/-- A bet record as built by `BettingStrategy.place_bet`. -/
structure Bet where
  tournament : String
  player : String
  amount : ℚ
  odds : ℚ
  potential_return : ℚ
  actual_winner : Option String
  won : Bool
  profit : ℚ
  deriving Repr, DecidableEq

/-- The mutable strategy state touched by `place_bet`: the bankroll and
the bet history list. -/
structure StrategyState where
  bankroll : ℚ
  bet_history : List Bet
  deriving Repr, DecidableEq

/-- Python truthiness test `if actual_winner and player == actual_winner`:
`None` and the empty string are falsy. -/
def winner_matches (player : String) (actual_winner : Option String) : Bool :=
  match actual_winner with
  | none => false
  | some w => if w = "" then false else player == w

/-- Embedding of `BettingStrategy.place_bet`.  The bet dictionary is
initialised with `won = False` and `profit = -amount` ("default to
loss"); if the actual winner is supplied and equals the player the bet
is marked won with `profit = amount*odds - amount` and the bankroll is
credited, otherwise the bankroll is debited by `amount`.  Returns the
new state together with the bet record. -/
def place_bet (st : StrategyState) (player : String) (amount odds : ℚ)
    (tournament : String) (actual_winner : Option String) :
    StrategyState × Bet :=
  let bet0 : Bet :=
    { tournament := tournament
      player := player
      amount := amount
      odds := odds
      potential_return := amount * odds
      actual_winner := actual_winner
      won := false
      profit := -amount }
  if winner_matches player actual_winner then
    let bet := { bet0 with won := true, profit := amount * odds - amount }
    ({ bankroll := st.bankroll + bet.profit
       bet_history := st.bet_history ++ [bet] }, bet)
  else
    ({ bankroll := st.bankroll - amount
       bet_history := st.bet_history ++ [bet0] }, bet0)

/-! ### ROICalculator (roi_calculator.py) -/

/-- A bet record as stored by `ROICalculator.add_bet`. -/
structure BetRec where
  stake : ℚ
  odds : ℚ
  american_odds : Option ℤ
  won : Bool
  profit : ℚ
  ret : ℚ
  deriving Repr, DecidableEq

/-- Embedding of `ROICalculator.add_bet` (lines 25-50): the profit is
`stake*odds - stake` if won, `-stake` otherwise, and the record is
appended to the bet list. -/
def add_bet (bets : List BetRec) (stake odds : ℚ) (won : Bool)
    (american_odds : Option ℤ) : List BetRec :=
  let profit := if won then stake * odds - stake else -stake
  bets ++ [{ stake := stake
             odds := odds
             american_odds := american_odds
             won := won
             profit := profit
             ret := stake + profit }]

/-- A ledger built by repeated `add_bet` calls from a list of
(stake, odds, won) triples, with no American odds supplied. -/
def build_ledger (entries : List (ℚ × ℚ × Bool)) : List BetRec :=
  entries.foldl (fun acc e => add_bet acc e.1 e.2.1 e.2.2 none) []

/-- Embedding of `ROICalculator.calculate_roi` (lines 52-68):
0 for an empty bet list, 0 when the total stake is 0, otherwise
`total_profit / total_staked * 100`. -/
def calculate_roi (bets : List BetRec) : ℚ :=
  if bets = [] then 0
  else
    let total_staked := (bets.map (fun b => b.stake)).sum
    let total_profit := (bets.map (fun b => b.profit)).sum
    if total_staked = 0 then 0
    else total_profit / total_staked * 100

/-- Running-sum embedding of `np.cumsum`, accumulator-style. -/
def cumsumAux (acc : ℚ) : List ℚ → List ℚ
  | [] => []
  | x :: xs => (acc + x) :: cumsumAux (acc + x) xs

/-- Embedding of `np.cumsum` on a rational list. -/
def cumsum (xs : List ℚ) : List ℚ := cumsumAux 0 xs

/-- Running-maximum embedding of `np.maximum.accumulate`, with the
maximum so far as accumulator. -/
def runningMaxAux (m : ℚ) : List ℚ → List ℚ
  | [] => []
  | x :: xs => max m x :: runningMaxAux (max m x) xs

/-- Embedding of `np.maximum.accumulate` on a rational list. -/
def runningMax : List ℚ → List ℚ
  | [] => []
  | x :: xs => x :: runningMaxAux x xs

/-- Minimum of a list, 0 on the empty list (the empty case is never
reached under the caller's length guard). -/
def listMin : List ℚ → ℚ
  | [] => 0
  | x :: xs => xs.foldl min x

/-- Embedding of `ROICalculator.calculate_max_drawdown` (lines 204-221):
0 for an empty profit array; otherwise add `initial_bankroll` to the
cumulative profit sums, take the running maximum of that series,
form `(current - runningMax)/runningMax` pointwise and report
`abs(min(drawdown)) * 100`. -/
def calculate_max_drawdown (initial_bankroll : ℚ) (profits : List ℚ) : ℚ :=
  if profits = [] then 0
  else
    let cumulative := (cumsum profits).map (fun x => x + initial_bankroll)
    let running_max := runningMax cumulative
    let drawdown := List.zipWith
      (fun c m => (c - m) / m) cumulative running_max
    |listMin drawdown| * 100

/-- Sample mean of a profit series, as used by the one-sample t-test. -/
def sampleMean (xs : List ℚ) : ℚ := xs.sum / (xs.length : ℚ)

/-- Embedding of `ROICalculator.calculate_significance` (lines 223-247).
The pair `(tstat, twoSided)` stands for the output of the external
`scipy.stats.ttest_1samp(profits, 0)` call, passed in as parameters;
the repository's own logic is the branching: with fewer than 2
observations return 1.0, else halve the two-sided p-value when the
t statistic is positive and return `1 - twoSided/2` otherwise. -/
def calculate_significance (profits : List ℚ) (tstat twoSided : ℚ) : ℚ :=
  if profits.length < 2 then 1
  else if 0 < tstat then twoSided / 2
  else 1 - twoSided / 2

/-- The analytic expected profit per bet of
`minimum_bets_for_significance` (line 314):
`(win_rate * (avg_odds - 1)) - (1 - win_rate)`. -/
def expected_profit_per_bet (win_rate avg_odds : ℚ) : ℚ :=
  win_rate * (avg_odds - 1) - (1 - win_rate)

/-- The analytic per-bet variance of `minimum_bets_for_significance`
(line 315): `win_rate * (avg_odds - 1)^2 + (1 - win_rate)`. -/
def bet_variance (win_rate avg_odds : ℚ) : ℚ :=
  win_rate * (avg_odds - 1) ^ 2 + (1 - win_rate)

/-- Embedding of `ROICalculator.minimum_bets_for_significance`
(lines 292-329).  `za` and `zb` stand for the external
`scipy.stats.norm.ppf(1 - alpha/2)` and `scipy.stats.norm.ppf(power)`
values, and `sqrtVar` for `np.sqrt(variance)`, all passed in as
parameters.  When the analytic variance is zero the function returns
100; when the effect size is zero the source computes `n = inf` (or
`nan`) and `int(np.ceil(n))` raises, modelled here as an error value;
otherwise it returns `max(ceil(((za+zb)/effect_size)^2), 30)`. -/
def minimum_bets_for_significance (win_rate avg_odds za zb sqrtVar : ℚ) :
    Except String ℤ :=
  if bet_variance win_rate avg_odds = 0 then Except.ok 100
  else
    let effect_size := expected_profit_per_bet win_rate avg_odds / sqrtVar
    if effect_size = 0 then
      Except.error ("OverflowError: cannot convert float infinity to integer")
    else
      let n := ((za + zb) / effect_size) ^ 2
      Except.ok (max ⌈n⌉ 30)

/-! ### OddsImporter (odds_importer.py) -/

/-- The required columns checked by `OddsImporter.import_csv`. -/
def required_cols : List String :=
  ["tournament", "date", "player", "outright_odds"]

/-- One row of an ingested odds table.  `outright_odds` is `none` for a
missing value (pandas NaN); the two derived columns are filled in by
`import_csv`. -/
structure OddsRecord where
  tournament : String
  date : String
  player : String
  outright_odds : Option ℚ
  outright_decimal : Option ℚ
  implied_prob : Option ℚ
  deriving Repr, DecidableEq

/-- An ingested table: its column names and its rows. -/
structure OddsFrame where
  columns : List String
  records : List OddsRecord
  deriving Repr, DecidableEq

/-- The empty DataFrame `pd.DataFrame()` returned by the exception
handler of `import_csv`. -/
def emptyFrame : OddsFrame := { columns := [], records := [] }

/-- Embedding of `OddsImporter._american_to_decimal` (lines 64-82):
`None` for NaN, `(odds/100) + 1` for positive American odds and
`(100/|odds|) + 1` for non-positive ones. -/
def american_to_decimal (odds : Option ℚ) : Option ℚ :=
  match odds with
  | none => none
  | some o => if 0 < o then some (o / 100 + 1) else some (100 / |o| + 1)

/-- Embedding of `OddsImporter._decimal_to_probability` (lines 84-96):
`None` for NaN or decimal odds at most 1, else `1/decimal`. -/
def decimal_to_probability (decimal_odds : Option ℚ) : Option ℚ :=
  match decimal_odds with
  | none => none
  | some d => if d ≤ 1 then none else some (1 / d)

/-- The `try` body of `OddsImporter.import_csv` (lines 40-58): validate
that every required column is present, raising
`ValueError("Missing required columns: ...")` otherwise, then derive
the decimal-odds and implied-probability columns for every row.  No
row is dropped. -/
def import_csv_body (f : OddsFrame) : Except String OddsFrame :=
  let missing := required_cols.filter (fun c => ¬ c ∈ f.columns)
  if missing ≠ [] then
    Except.error ("Missing required columns: " ++ String.intercalate (", ") missing)
  else
    Except.ok
      { columns := f.columns ++ ["outright_decimal", "implied_prob"]
        records := f.records.map (fun r =>
          let d := american_to_decimal r.outright_odds
          { r with outright_decimal := d
                   implied_prob := decimal_to_probability d }) }

/-- Embedding of `OddsImporter.import_csv` (lines 27-62) as seen by its
caller: the body runs inside `try`, and the `except Exception` handler
prints the error and returns the empty DataFrame. -/
def import_csv (f : OddsFrame) : OddsFrame :=
  match import_csv_body f with
  | Except.error _ => emptyFrame
  | Except.ok df => df

/-! ### WeatherEdgeStrategy and CombinedStrategy probabilities -/

/-- Input record for one player of a tournament, with the fields read
by `WeatherEdgeStrategy.calculate_probabilities`; `0.02` and `0` are
the `.get` defaults already applied. -/
structure PlayerData where
  name : String
  base_probability : ℚ
  wind_performance : ℚ
  deriving Repr, DecidableEq

/-- The wind threshold set in `WeatherEdgeStrategy.__init__` (15 mph). -/
def wind_threshold : ℚ := 15

/-- The raw (pre-normalization) score `WeatherEdgeStrategy` assigns to
one player (strategy.py lines 203-213): above the wind threshold the
base probability is boosted by `wind_performance * 0.1`, otherwise it
is used as is. -/
def weather_score (wind_speed : ℚ) (p : PlayerData) : ℚ :=
  if wind_threshold < wind_speed then
    p.base_probability * (1 + p.wind_performance * (1 / 10))
  else p.base_probability

/-- Normalization step shared by every strategy (`{k: v/total ...}`
guarded by `if total > 0`). -/
def normalize_probs (l : List (String × ℚ)) : List (String × ℚ) :=
  let total := (l.map Prod.snd).sum
  if 0 < total then l.map (fun kv => (kv.1, kv.2 / total)) else l

/-- Embedding of `WeatherEdgeStrategy.calculate_probabilities`
(strategy.py lines 190-220), with the probabilities dictionary
modelled as an association list in player order. -/
def weather_calculate_probabilities (wind_speed : ℚ)
    (players : List PlayerData) : List (String × ℚ) :=
  normalize_probs (players.map (fun p => (p.name, weather_score wind_speed p)))

/-- Dictionary lookup `probs.get(player, 0)` on an association list. -/
def probsGet (l : List (String × ℚ)) (k : String) : ℚ :=
  match l.find? (fun kv => kv.1 = k) with
  | some kv => kv.2
  | none => 0

/-- The union of player names over all sub-distributions, as collected
by `CombinedStrategy.calculate_probabilities` lines 350-352. -/
def all_players (all_probs : List (List (String × ℚ))) : List String :=
  ((all_probs.map (fun l => l.map Prod.fst)).flatten).dedup

/-- The pre-normalization combined scores of
`CombinedStrategy.calculate_probabilities` (lines 354-358): for each
player in the union, the weight-weighted sum of its probability in
each sub-distribution, missing entries contributing 0. -/
def combined_raw (weights : List ℚ) (all_probs : List (List (String × ℚ))) :
    List (String × ℚ) :=
  (all_players all_probs).map (fun pl =>
    (pl, ((all_probs.zip weights).map (fun pw => probsGet pw.1 pl * pw.2)).sum))

/-- Embedding of `CombinedStrategy.calculate_probabilities`
(strategy.py lines 337-365): the sub-distributions `all_probs` are the
results of the sub-strategies, combined with `weights` and normalized. -/
def combined_calculate_probabilities (weights : List ℚ)
    (all_probs : List (List (String × ℚ))) : List (String × ℚ) :=
  normalize_probs (combined_raw weights all_probs)

/-! ### Concrete inputs used in theorems below -/

/-- The single bet record produced by `add_bet` from a
(stake, odds, won) triple with no American odds. -/
def bet_of (e : ℚ × ℚ × Bool) : BetRec :=
  { stake := e.1
    odds := e.2.1
    american_odds := none
    won := e.2.2
    profit := if e.2.2 then e.1 * e.2.1 - e.1 else -e.1
    ret := e.1 + (if e.2.2 then e.1 * e.2.1 - e.1 else -e.1) }

/-- An ingested odds table whose `outright_odds` column is missing:
it has columns tournament, date and player only, and one row. -/
def badFrame : OddsFrame :=
  { columns := ["tournament", "date", "player"]
    records := [{ tournament := "Masters 2024"
                  date := "2024-04-11"
                  player := "Scottie Scheffler"
                  outright_odds := none
                  outright_decimal := none
                  implied_prob := none }] }

/-- A player list on which one player carries a positive raw score but
the total raw score is negative. -/
def badPlayers : List PlayerData :=
  [{ name := "A", base_probability := 1, wind_performance := 0 },
   { name := "B", base_probability := -2, wind_performance := 0 }]

end GolfGod

namespace GolfGod

/-! ### Theorems for calculate_edge and kelly_bet_size -/

/-- Claim C9: `calculate_edge` returns `(ourProb - marketProb)/marketProb`
when `marketProb > 0`, and returns 0 (fails soft) whenever
`marketProb <= 0`. -/
theorem calculate_edge_spec (our_prob market_prob : ℚ) :
    (market_prob ≤ 0 → calculate_edge our_prob market_prob = 0) ∧
    (0 < market_prob →
      calculate_edge our_prob market_prob =
        (our_prob - market_prob) / market_prob) := by
  constructor
  · intro h
    simp [calculate_edge, h]
  · intro h
    simp [calculate_edge, not_le.mpr h]

/-- Witness for C9 at concrete inputs: market probability 0 gives edge 0,
and market probability 1/2 with our probability 3/2 gives edge 2. -/
theorem calculate_edge_spec_witness :
    calculate_edge (1/2) 0 = 0 ∧ calculate_edge (3/2) (1/2) = 2 := by
  refine ⟨(calculate_edge_spec (1/2) 0).1 (by norm_num), ?_⟩
  have h := (calculate_edge_spec (3/2) (1/2)).2 (by norm_num)
  rw [h]
  norm_num

/-- Helper: on the positive branch the inner Kelly expression collapses
to `edge / (odds - 1)`. -/
theorem full_kelly_eq (edge odds : ℚ) (h : 1 < odds) :
    full_kelly edge odds = edge / (odds - 1) := by
  have hb : odds - 1 ≠ 0 := by linarith [h]
  have hb1 : odds - 1 + 1 ≠ 0 := by intro hc; linarith
  unfold full_kelly
  field_simp
  ring

/-- Claim C1: `kelly_bet_size` returns exactly 0 when `edge <= 0` or
`odds <= 1`, and for `kelly_fraction` in (0,1] and `max_bet_pct` in (0,1]
its result always lies in the closed interval [0, max_bet_pct]. -/
theorem kelly_bet_size_bounds (kf mbp edge odds : ℚ)
    (hkf0 : 0 < kf) (hkf1 : kf ≤ 1) (hm0 : 0 < mbp) (hm1 : mbp ≤ 1) :
    ((edge ≤ 0 ∨ odds ≤ 1) → kelly_bet_size kf mbp edge odds = 0) ∧
    0 ≤ kelly_bet_size kf mbp edge odds ∧
    kelly_bet_size kf mbp edge odds ≤ mbp := by
  constructor
  · intro h
    simp [kelly_bet_size, h]
  · by_cases h : edge ≤ 0 ∨ odds ≤ 1
    · constructor
      · simp [kelly_bet_size, h]
      · simp [kelly_bet_size, h]
        linarith
    · push_neg at h
      obtain ⟨he, ho⟩ := h
      have he2 : 0 < edge := lt_of_not_le (by simpa using he)
      have ho2 : 1 < odds := lt_of_not_le (by simpa using ho)
      have hstep : kelly_bet_size kf mbp edge odds =
          min (full_kelly edge odds * kf) mbp := by
        simp [kelly_bet_size, full_kelly, not_le.mpr he2, not_le.mpr ho2]
      rw [hstep, full_kelly_eq edge odds ho2]
      have hb : 0 < odds - 1 := by linarith
      have hpos : 0 < edge / (odds - 1) * kf :=
        mul_pos (div_pos he2 hb) hkf0
      exact ⟨le_min (le_of_lt hpos) (le_of_lt hm0), min_le_right _ _⟩

/-- Witness for C1 at concrete inputs: `kelly_fraction = 1/4`,
`max_bet_pct = 1/20`, edge 1/5, odds 10: the zero branch fires at
edge 0 and the bounded result holds at the positive input. -/
theorem kelly_bet_size_bounds_witness :
    (kelly_bet_size (1/4) (1/20) 0 10 = 0) ∧
    0 ≤ kelly_bet_size (1/4) (1/20) (1/5) 10 ∧
    kelly_bet_size (1/4) (1/20) (1/5) 10 ≤ 1/20 := by
  have h1 := kelly_bet_size_bounds (1/4) (1/20) 0 10
    (by norm_num) (by norm_num) (by norm_num) (by norm_num)
  have h2 := kelly_bet_size_bounds (1/4) (1/20) (1/5) 10
    (by norm_num) (by norm_num) (by norm_num) (by norm_num)
  exact ⟨h1.1 (Or.inl le_rfl), h2.2⟩

/-- Claim C10: for edge > 0 and odds > 1, the full Kelly fraction
computed through the probability-recovery steps equals
`edge/(odds-1)` exactly, so `kelly_bet_size` equals
`min (kelly_fraction * (edge/(odds-1))) max_bet_pct`. -/
theorem kelly_bet_size_closed_form (kf mbp edge odds : ℚ)
    (he : 0 < edge) (ho : 1 < odds) :
    full_kelly edge odds = edge / (odds - 1) ∧
    kelly_bet_size kf mbp edge odds =
      min (kf * (edge / (odds - 1))) mbp := by
  refine ⟨full_kelly_eq edge odds ho, ?_⟩
  have hstep : kelly_bet_size kf mbp edge odds =
      min (full_kelly edge odds * kf) mbp := by
    simp [kelly_bet_size, full_kelly, not_le.mpr he, not_le.mpr ho]
  rw [hstep, full_kelly_eq edge odds ho, mul_comm]

/-- Witness for C10 at edge 1/5, odds 10, kelly_fraction 1/4,
max_bet_pct 1/20: full Kelly is 1/45 and the bet size is
min(1/180, 1/20) = 1/180. -/
theorem kelly_bet_size_closed_form_witness :
    full_kelly (1/5) 10 = (1/5) / (10 - 1) ∧
    kelly_bet_size (1/4) (1/20) (1/5) 10 =
      min ((1/4) * ((1/5) / (10 - 1))) (1/20) :=
  kelly_bet_size_closed_form (1/4) (1/20) (1/5) 10
    (by norm_num) (by norm_num)

/-! ### Theorems for place_bet (claim C8) -/

/-- Counterexample to claim C8: a wager placed with no settlement
outcome (`actual_winner = None`) does NOT leave profit and outcome
undefined: `place_bet` already assigns `won = False` and
`profit = -amount` at placement and debits the bankroll, here for a
10-unit bet at odds 2 from a bankroll of 1000. -/
theorem place_bet_pending_assigned :
    (place_bet ⟨1000, []⟩ ("A") 10 2 ("T") none).2.profit = -10 ∧
    (place_bet ⟨1000, []⟩ ("A") 10 2 ("T") none).2.won = false ∧
    (place_bet ⟨1000, []⟩ ("A") 10 2 ("T") none).1.bankroll = 990 := by
  refine ⟨?_, ?_, ?_⟩ <;> norm_num [place_bet, winner_matches]

/-- Amended claim C8: a bet's profit equals `stake*(price-1)` when the
actual winner is supplied (non-empty) and equals the player, and
`-stake` in every other case — including the pending case
(`actual_winner = None`), which is recorded as a loss at placement;
outcome and profit are assigned at placement, not at a later
settlement. -/
theorem place_bet_profit_spec (st : StrategyState) (player : String)
    (amount odds : ℚ) (tournament : String) (aw : Option String) :
    (winner_matches player aw = true →
      (place_bet st player amount odds tournament aw).2.won = true ∧
      (place_bet st player amount odds tournament aw).2.profit =
        amount * (odds - 1)) ∧
    (winner_matches player aw = false →
      (place_bet st player amount odds tournament aw).2.won = false ∧
      (place_bet st player amount odds tournament aw).2.profit = -amount) := by
  constructor
  · intro h
    constructor
    · simp [place_bet, h]
    · simp [place_bet, h]
      ring
  · intro h
    constructor
    · simp [place_bet, h]
    · simp [place_bet, h]

/-- Witness for the amended C8 at concrete inputs: a settled winning
bet of 10 at odds 3 has profit 10*(3-1), and a pending bet of 10 has
profit -10. -/
theorem place_bet_profit_spec_witness :
    ((place_bet ⟨1000, []⟩ ("A") 10 3 ("T") (some ("A"))).2.won = true ∧
     (place_bet ⟨1000, []⟩ ("A") 10 3 ("T") (some ("A"))).2.profit =
       10 * (3 - 1)) ∧
    ((place_bet ⟨1000, []⟩ ("A") 10 3 ("T") none).2.won = false ∧
     (place_bet ⟨1000, []⟩ ("A") 10 3 ("T") none).2.profit = -10) :=
  ⟨(place_bet_profit_spec ⟨1000, []⟩ ("A") 10 3 ("T") (some ("A"))).1
      (by decide),
   (place_bet_profit_spec ⟨1000, []⟩ ("A") 10 3 ("T") none).2 (by decide)⟩

/-! ### Theorems for calculate_roi (claim C5) -/

/-- Helper: summing a scaled map pulls the constant out. -/
theorem sum_map_mul (c : ℚ) {α : Type} (f : α → ℚ) (l : List α) :
    (l.map (fun x => c * f x)).sum = c * (l.map f).sum := by
  induction l with
  | nil => simp
  | cons a t ih => simp [ih, mul_add]

/-- Helper: `build_ledger` is the per-entry record builder mapped over
the entries. -/
theorem build_ledger_eq_map (entries : List (ℚ × ℚ × Bool)) :
    build_ledger entries = entries.map bet_of := by
  have step : ∀ (es : List (ℚ × ℚ × Bool)) (acc : List BetRec),
      es.foldl (fun a e => add_bet a e.1 e.2.1 e.2.2 none) acc =
        acc ++ es.map bet_of := by
    intro es
    induction es with
    | nil => intro acc; simp
    | cons e t ih =>
      intro acc
      rw [List.foldl_cons, ih]
      simp [add_bet, bet_of]
  simpa using step entries []

/-- Helper: the profit stored for a scaled entry is the scaled profit. -/
theorem bet_of_scale_profit (c : ℚ) (e : ℚ × ℚ × Bool) :
    (bet_of (c * e.1, e.2.1, e.2.2)).profit = c * (bet_of e).profit := by
  rcases e with ⟨s, o, w⟩
  cases w <;> simp [bet_of] <;> ring

/-- Claim C5: ROI is 0 on an empty bet list and on a zero-total-stake
list, equals `sum(profit)/sum(stake)*100` otherwise, and is invariant
under scaling every recorded stake by the same positive constant while
keeping odds and outcomes fixed. -/
theorem calculate_roi_spec (bets : List BetRec)
    (entries : List (ℚ × ℚ × Bool)) (c : ℚ) (hc : 0 < c) :
    calculate_roi [] = 0 ∧
    ((bets.map (fun b => b.stake)).sum = 0 → calculate_roi bets = 0) ∧
    (bets ≠ [] → (bets.map (fun b => b.stake)).sum ≠ 0 →
      calculate_roi bets =
        (bets.map (fun b => b.profit)).sum /
          (bets.map (fun b => b.stake)).sum * 100) ∧
    calculate_roi
        (build_ledger (entries.map (fun e => (c * e.1, e.2.1, e.2.2)))) =
      calculate_roi (build_ledger entries) := by
  refine ⟨rfl, ?_, ?_, ?_⟩
  · intro h
    by_cases hb : bets = []
    · simp [hb, calculate_roi]
    · simp [calculate_roi, hb, h]
  · intro hb h
    simp [calculate_roi, hb, h]
  · rcases entries with _ | ⟨e0, es⟩
    · rfl
    · set entries := e0 :: es with hE
      have hne : entries ≠ [] := by simp [hE]
      have hmapne : entries.map (fun e => (c * e.1, e.2.1, e.2.2)) ≠ [] := by
        simp [hE]
      have hL := build_ledger_eq_map entries
      have hLs := build_ledger_eq_map
        (entries.map (fun e => (c * e.1, e.2.1, e.2.2)))
      have hLne : build_ledger entries ≠ [] := by
        rw [hL]; simpa [hE] using hmapne
      have hLsne :
          build_ledger (entries.map (fun e => (c * e.1, e.2.1, e.2.2))) ≠
            [] := by
        rw [hLs]; simp [hE]
      have hstake :
          ((build_ledger (entries.map (fun e => (c * e.1, e.2.1, e.2.2)))).map
              (fun b => b.stake)).sum =
            c * ((build_ledger entries).map (fun b => b.stake)).sum := by
        rw [hL, hLs, List.map_map, List.map_map, List.map_map]
        have : (((fun b : BetRec => b.stake) ∘ bet_of) ∘
            (fun e : ℚ × ℚ × Bool => (c * e.1, e.2.1, e.2.2))) =
            fun e : ℚ × ℚ × Bool =>
              c * ((fun b : BetRec => b.stake) ∘ bet_of) e := by
          funext e; rfl
        rw [this, sum_map_mul]
      have hprofit :
          ((build_ledger (entries.map (fun e => (c * e.1, e.2.1, e.2.2)))).map
              (fun b => b.profit)).sum =
            c * ((build_ledger entries).map (fun b => b.profit)).sum := by
        rw [hL, hLs, List.map_map, List.map_map, List.map_map]
        have : (((fun b : BetRec => b.profit) ∘ bet_of) ∘
            (fun e : ℚ × ℚ × Bool => (c * e.1, e.2.1, e.2.2))) =
            fun e : ℚ × ℚ × Bool =>
              c * ((fun b : BetRec => b.profit) ∘ bet_of) e := by
          funext e
          exact bet_of_scale_profit c e
        rw [this, sum_map_mul]
      by_cases hz : ((build_ledger entries).map (fun b => b.stake)).sum = 0
      · have hz2 :
            ((build_ledger (entries.map
                (fun e => (c * e.1, e.2.1, e.2.2)))).map
              (fun b => b.stake)).sum = 0 := by
          rw [hstake, hz, mul_zero]
        simp [calculate_roi, hLne, hLsne, hz, hz2]
      · have hz2 :
            ((build_ledger (entries.map
                (fun e => (c * e.1, e.2.1, e.2.2)))).map
              (fun b => b.stake)).sum ≠ 0 := by
          rw [hstake]
          exact mul_ne_zero (ne_of_gt hc) hz
        simp only [calculate_roi, hLne, hLsne, hz, hz2, if_false,
          if_neg hLne, if_neg hLsne]
        rw [hstake, hprofit]
        rw [mul_div_mul_left _ _ (ne_of_gt hc)]

/-- Witness for C5: scaling the two-bet ledger
[(50, 15, lost), (40, 12, won)] by 2 leaves the ROI unchanged. -/
theorem calculate_roi_spec_witness :
    calculate_roi
        (build_ledger ([((50:ℚ), (15:ℚ), false), ((40:ℚ), (12:ℚ), true)].map
          (fun e => ((2:ℚ) * e.1, e.2.1, e.2.2)))) =
      calculate_roi (build_ledger [((50:ℚ), (15:ℚ), false), ((40:ℚ), (12:ℚ), true)]) :=
  (calculate_roi_spec [] [((50:ℚ), (15:ℚ), false), ((40:ℚ), (12:ℚ), true)] 2
    (by norm_num)).2.2.2

/-! ### Theorems for calculate_max_drawdown (claim C6) -/

/-- Helper: the cumulative sums of a non-negative list form an
ascending chain from the accumulator. -/
theorem chain_cumsumAux (a : ℚ) (xs : List ℚ) (h : ∀ x ∈ xs, 0 ≤ x) :
    List.Chain (· ≤ ·) a (cumsumAux a xs) := by
  induction xs generalizing a with
  | nil => exact List.Chain.nil
  | cons x t ih =>
    refine List.Chain.cons ?_ (ih (a + x) ?_)
    · have := h x (by simp)
      linarith
    · intro y hy
      exact h y (by simp [hy])

/-- Helper: adding a constant preserves an ascending chain. -/
theorem chain_add_const (B a : ℚ) (l : List ℚ)
    (h : List.Chain (· ≤ ·) a l) :
    List.Chain (· ≤ ·) (a + B) (l.map (fun x => x + B)) := by
  induction l generalizing a with
  | nil => exact List.Chain.nil
  | cons x t ih =>
    rcases h with _ | ⟨hax, ht⟩
    exact List.Chain.cons (show a + B ≤ x + B by linarith) (ih x ht)

/-- Helper: the running maximum of an ascending chain is the chain
itself. -/
theorem runningMaxAux_of_chain (m : ℚ) (l : List ℚ)
    (h : List.Chain (· ≤ ·) m l) : runningMaxAux m l = l := by
  induction l generalizing m with
  | nil => rfl
  | cons x t ih =>
    rcases h with _ | ⟨hmx, ht⟩
    simp [runningMaxAux, max_eq_right hmx, ih x ht]

/-- Helper: the pointwise drawdown of a series against itself is zero
everywhere. -/
theorem zipWith_self_drawdown (l : List ℚ) :
    List.zipWith (fun c m => (c - m) / m) l l = l.map (fun _ => (0:ℚ)) := by
  induction l with
  | nil => rfl
  | cons x t ih => simp [List.zipWith, ih]

/-- Helper: the minimum of an all-zero list is zero. -/
theorem listMin_zeros (l : List ℚ) : listMin (l.map (fun _ => (0:ℚ))) = 0 := by
  rcases l with _ | ⟨x, t⟩
  · rfl
  · show List.foldl min 0 (t.map (fun _ => (0:ℚ))) = 0
    induction t with
    | nil => rfl
    | cons y s ih => simpa using ih

/-- Claim C6: `calculate_max_drawdown` always returns a non-negative
value, and returns exactly 0 whenever every per-bet profit is
non-negative (so the cumulative profit series is monotonically
non-decreasing). -/
theorem calculate_max_drawdown_spec (B : ℚ) (profits : List ℚ) :
    0 ≤ calculate_max_drawdown B profits ∧
    ((∀ x ∈ profits, 0 ≤ x) → calculate_max_drawdown B profits = 0) := by
  constructor
  · unfold calculate_max_drawdown
    by_cases h : profits = []
    · simp [h]
    · simp only [h, if_false, if_neg h]
      positivity
  · intro h
    unfold calculate_max_drawdown
    by_cases hp : profits = []
    · simp [hp]
    · rcases profits with _ | ⟨p, ps⟩
      · simp at hp
      · simp only [if_neg hp]
        have hchain : List.Chain (· ≤ ·) (0 + p + B)
            ((cumsumAux (0 + p) ps).map (fun x => x + B)) :=
          chain_add_const B (0 + p) (cumsumAux (0 + p) ps)
            (chain_cumsumAux (0 + p) ps (by
              intro y hy
              exact h y (by simp [hy])))
        have hc : (cumsum (p :: ps)).map (fun x => x + B) =
            (0 + p + B) :: (cumsumAux (0 + p) ps).map (fun x => x + B) := by
          simp [cumsum, cumsumAux]
        rw [hc, runningMax, runningMaxAux_of_chain _ _ hchain]
        rw [zipWith_self_drawdown, listMin_zeros]
        simp

/-- Witness for C6 at bankroll 1000 and profits [1, 2]: the drawdown is
non-negative and equals 0 since every profit is non-negative. -/
theorem calculate_max_drawdown_spec_witness :
    0 ≤ calculate_max_drawdown 1000 [1, 2] ∧
    calculate_max_drawdown 1000 [1, 2] = 0 :=
  ⟨(calculate_max_drawdown_spec 1000 [1, 2]).1,
   (calculate_max_drawdown_spec 1000 [1, 2]).2 (by decide)⟩

/-! ### Theorems for calculate_significance (claim C3) -/

/-- Claim C3: `calculate_significance` returns exactly 1 for fewer than
2 observations; for length at least 2 it halves the two-sided p-value
when the sample mean is positive and returns `1 - twoSided/2` when the
sample mean is non-positive, which is always at least 1/2.  The pair
`(tstat, twoSided)` is the external scipy t-test output, constrained
by `twoSided` being a probability and the t statistic having the sign
of the sample mean. -/
theorem calculate_significance_spec (profits : List ℚ)
    (tstat twoSided : ℚ) (h0 : 0 ≤ twoSided) (h1 : twoSided ≤ 1)
    (hsign : 0 < tstat ↔ 0 < sampleMean profits) :
    (profits.length < 2 →
      calculate_significance profits tstat twoSided = 1) ∧
    (2 ≤ profits.length →
      (0 < sampleMean profits →
        calculate_significance profits tstat twoSided = twoSided / 2) ∧
      (sampleMean profits ≤ 0 →
        calculate_significance profits tstat twoSided = 1 - twoSided / 2 ∧
        1/2 ≤ calculate_significance profits tstat twoSided)) := by
  constructor
  · intro h
    simp [calculate_significance, h]
  · intro h
    have hlen : ¬ profits.length < 2 := not_lt.mpr h
    constructor
    · intro hm
      simp [calculate_significance, hlen, hsign.mpr hm]
    · intro hm
      have ht : ¬ 0 < tstat := fun hc => absurd (hsign.mp hc) (not_lt.mpr hm)
      constructor
      · simp [calculate_significance, hlen, ht]
      · simp only [calculate_significance, hlen, if_false, if_neg hlen,
          if_neg ht]
        linarith

/-- Witness for C3 with profits [1, 3] (sample mean 2), scipy t
statistic 2 and two-sided p-value 1/5: the returned one-sided p-value
is 1/10. -/
theorem calculate_significance_spec_witness :
    calculate_significance [1, 3] 2 (1/5) = (1/5) / 2 :=
  ((calculate_significance_spec [1, 3] 2 (1/5) (by norm_num) (by norm_num)
      (by norm_num [sampleMean])).2 (by norm_num)).1
    (by norm_num [sampleMean])

/-! ### Theorems for minimum_bets_for_significance (claim C7) -/

/-- Counterexample to claim C7: at win rate 0.10 and average odds 10.0
(with the default confidence 0.95 and power 0.80, whose normal
quantiles are abbreviated here as 49/25 and 21/25, and sqrt(variance)
= 3 since the variance is 9), the expected profit per bet is 0, the
effect size is 0, and the source raises `OverflowError` from
`int(np.ceil(inf))` instead of returning an integer of at least 30. -/
theorem minimum_bets_crash :
    minimum_bets_for_significance (1/10) 10 (49/25) (21/25) 3 =
      Except.error
        ("OverflowError: cannot convert float infinity to integer") := by
  norm_num [minimum_bets_for_significance, bet_variance,
    expected_profit_per_bet]

/-- Amended claim C7: whenever the analytically computed per-bet
variance is zero the function returns 100; whenever the variance and
the expected profit per bet are both nonzero it returns the maximum of
30 and the ceiling of `((z_alpha + z_beta)/effectSize)^2`, which is at
least 30.  When the expected profit per bet is zero with nonzero
variance, the function raises instead of returning. -/
theorem minimum_bets_spec (win_rate avg_odds za zb sqrtVar : ℚ)
    (hs : sqrtVar ^ 2 = bet_variance win_rate avg_odds) :
    (bet_variance win_rate avg_odds = 0 →
      minimum_bets_for_significance win_rate avg_odds za zb sqrtVar =
        Except.ok 100) ∧
    (bet_variance win_rate avg_odds ≠ 0 →
      expected_profit_per_bet win_rate avg_odds ≠ 0 →
      minimum_bets_for_significance win_rate avg_odds za zb sqrtVar =
        Except.ok (max ⌈((za + zb) /
          (expected_profit_per_bet win_rate avg_odds / sqrtVar)) ^ 2⌉ 30) ∧
      (30:ℤ) ≤ max ⌈((za + zb) /
          (expected_profit_per_bet win_rate avg_odds / sqrtVar)) ^ 2⌉ 30) := by
  constructor
  · intro h
    simp [minimum_bets_for_significance, h]
  · intro hv he
    have hsv : sqrtVar ≠ 0 := by
      intro hc
      rw [hc] at hs
      exact hv (by linarith [hs])
    have heff : expected_profit_per_bet win_rate avg_odds / sqrtVar ≠ 0 :=
      div_ne_zero he hsv
    constructor
    · simp [minimum_bets_for_significance, hv, heff]
    · exact le_max_right _ _

/-- Witness for the amended C7 at win rate 3/5, average odds 2,
quantiles 2 and 1, sqrt(variance) 1 (the variance is exactly 1): the
expected profit per bet is 1/5 and the function returns
max(ceil(225), 30) = 225. -/
theorem minimum_bets_spec_witness :
    minimum_bets_for_significance (3/5) 2 2 1 1 =
      Except.ok (max ⌈(((2:ℚ) + 1) /
        (expected_profit_per_bet (3/5) 2 / 1)) ^ 2⌉ 30) ∧
    (30:ℤ) ≤ max ⌈(((2:ℚ) + 1) /
        (expected_profit_per_bet (3/5) 2 / 1)) ^ 2⌉ 30 :=
  (minimum_bets_spec (3/5) 2 2 1 1
      (by norm_num [bet_variance])).2
    (by norm_num [bet_variance]) (by norm_num [expected_profit_per_bet])

/-! ### Theorems for import_csv (claim C2) -/

/-- Counterexample to claim C2: `badFrame` is missing the required
`outright_odds` column and has one row, yet `import_csv` does not
surface any error to its caller: it returns the plain empty DataFrame,
dropping the row, because its `except Exception` handler swallows the
internal `ValueError`. -/
theorem import_csv_swallows_error :
    import_csv badFrame = emptyFrame ∧
    badFrame.records.length = 1 ∧
    (import_csv badFrame).records.length = 0 := by
  refine ⟨?_, rfl, ?_⟩ <;> rfl

/-- Amended claim C2: when a required column is absent, the `try` body
of `import_csv` does raise a `ValueError` naming the missing columns,
but the surrounding handler catches every exception and hands the
caller an empty DataFrame instead; the caller never sees the error. -/
theorem import_csv_error_handling (f : OddsFrame)
    (h : required_cols.filter (fun c => ¬ c ∈ f.columns) ≠ []) :
    import_csv_body f =
      Except.error ("Missing required columns: " ++
        String.intercalate (", ")
          (required_cols.filter (fun c => ¬ c ∈ f.columns))) ∧
    import_csv f = emptyFrame := by
  have hbody : import_csv_body f =
      Except.error ("Missing required columns: " ++
        String.intercalate (", ")
          (required_cols.filter (fun c => ¬ c ∈ f.columns))) := by
    unfold import_csv_body
    simp only [h, if_true, if_pos h]
  refine ⟨hbody, ?_⟩
  unfold import_csv
  rw [hbody]

/-- Witness for the amended C2 at `badFrame`: the body reports the
missing `outright_odds` column and the caller receives the empty
DataFrame. -/
theorem import_csv_error_handling_witness :
    import_csv_body badFrame =
      Except.error ("Missing required columns: " ++
        String.intercalate (", ")
          (required_cols.filter (fun c => ¬ c ∈ badFrame.columns))) ∧
    import_csv badFrame = emptyFrame :=
  import_csv_error_handling badFrame (by decide)

/-! ### Theorems for probability normalization (claim C4) -/

/-- Counterexample to claim C4: on `badPlayers` (non-empty, and player
A carries the positive raw score 1) the distribution returned by
`WeatherEdgeStrategy.calculate_probabilities` at wind speed 0 sums to
-1, not to 1 within 1e-6: the raw score of player B is -2, the total
is not positive, and the unnormalized scores are returned as is. -/
theorem weather_probabilities_unnormalized :
    0 < weather_score 0 ⟨("A"), 1, 0⟩ ∧
    ((weather_calculate_probabilities 0 badPlayers).map Prod.snd).sum = -1 ∧
    ¬ |((weather_calculate_probabilities 0 badPlayers).map Prod.snd).sum
        - 1| ≤ 1/1000000 := by
  refine ⟨by norm_num [weather_score, wind_threshold], ?_, ?_⟩ <;>
    norm_num [weather_calculate_probabilities, normalize_probs, badPlayers,
      weather_score, wind_threshold]

/-- Helper: every element of a non-negative list sums to a
non-negative total. -/
theorem list_sum_nonneg (l : List ℚ) (h : ∀ x ∈ l, 0 ≤ x) : 0 ≤ l.sum := by
  induction l with
  | nil => simp
  | cons x t ih =>
    simp only [List.sum_cons]
    have := h x (by simp)
    have ht : 0 ≤ t.sum := ih (fun y hy => h y (by simp [hy]))
    linarith

/-- Helper: a non-negative list with a positive element has a positive
sum. -/
theorem list_sum_pos (l : List ℚ) (h0 : ∀ x ∈ l, 0 ≤ x)
    (h1 : ∃ x ∈ l, 0 < x) : 0 < l.sum := by
  induction l with
  | nil => simp at h1
  | cons x t ih =>
    simp only [List.sum_cons]
    rcases h1 with ⟨y, hy, hpos⟩
    rcases List.mem_cons.mp hy with rfl | hyt
    · have ht : 0 ≤ t.sum :=
        list_sum_nonneg t (fun z hz => h0 z (by simp [hz]))
      linarith
    · have hx := h0 x (by simp)
      have ht := ih (fun z hz => h0 z (by simp [hz])) ⟨y, hyt, hpos⟩
      linarith

/-- Helper: dividing each value by the total pulls the division out of
the sum. -/
theorem sum_map_div {α : Type} (f : α → ℚ) (t : ℚ) (l : List α) :
    (l.map (fun x => f x / t)).sum = (l.map f).sum / t := by
  induction l with
  | nil => simp
  | cons a s ih => simp [ih, add_div]

/-- Helper: when the raw values sum to a positive total, the
normalization step returns values summing exactly to 1. -/
theorem normalize_probs_sum (l : List (String × ℚ))
    (h : 0 < (l.map Prod.snd).sum) :
    ((normalize_probs l).map Prod.snd).sum = 1 := by
  unfold normalize_probs
  rw [if_pos h, List.map_map]
  have hcomp : (Prod.snd ∘ fun kv : String × ℚ =>
      (kv.1, kv.2 / (l.map Prod.snd).sum)) =
      fun kv : String × ℚ => Prod.snd kv / (l.map Prod.snd).sum := by
    funext kv; rfl
  rw [hcomp, sum_map_div]
  exact div_self (ne_of_gt h)

/-- Amended claim C4: the distribution returned by
`WeatherEdgeStrategy.calculate_probabilities` sums to exactly 1 (hence
to 1 within 1e-6) for any player list whose raw weather scores are all
non-negative with at least one positive, and the distribution returned
by `CombinedStrategy.calculate_probabilities` sums to exactly 1 for
any weighted combination whose combined raw scores are all
non-negative with at least one positive. -/
theorem probabilities_sum_one (wind : ℚ) (players : List PlayerData)
    (weights : List ℚ) (all_probs : List (List (String × ℚ)))
    (hW0 : ∀ p ∈ players, 0 ≤ weather_score wind p)
    (hW1 : ∃ p ∈ players, 0 < weather_score wind p)
    (hC0 : ∀ kv ∈ combined_raw weights all_probs, 0 ≤ kv.2)
    (hC1 : ∃ kv ∈ combined_raw weights all_probs, 0 < kv.2) :
    (((weather_calculate_probabilities wind players).map Prod.snd).sum = 1 ∧
     |((weather_calculate_probabilities wind players).map Prod.snd).sum
        - 1| ≤ 1/1000000) ∧
    (((combined_calculate_probabilities weights all_probs).map
        Prod.snd).sum = 1 ∧
     |((combined_calculate_probabilities weights all_probs).map
        Prod.snd).sum - 1| ≤ 1/1000000) := by
  have hWsum : 0 < ((players.map (fun p =>
      (p.name, weather_score wind p))).map Prod.snd).sum := by
    rw [List.map_map]
    have hcomp : (Prod.snd ∘ fun p : PlayerData =>
        (p.name, weather_score wind p)) =
        fun p : PlayerData => weather_score wind p := by
      funext p; rfl
    rw [hcomp]
    apply list_sum_pos
    · intro x hx
      rcases List.mem_map.mp hx with ⟨p, hp, rfl⟩
      exact hW0 p hp
    · rcases hW1 with ⟨p, hp, hpos⟩
      exact ⟨weather_score wind p, List.mem_map.mpr ⟨p, hp, rfl⟩, hpos⟩
  have hCsum : 0 < ((combined_raw weights all_probs).map Prod.snd).sum := by
    apply list_sum_pos
    · intro x hx
      rcases List.mem_map.mp hx with ⟨kv, hkv, rfl⟩
      exact hC0 kv hkv
    · rcases hC1 with ⟨kv, hkv, hpos⟩
      exact ⟨kv.2, List.mem_map.mpr ⟨kv, hkv, rfl⟩, hpos⟩
  have hW := normalize_probs_sum _ hWsum
  have hC := normalize_probs_sum _ hCsum
  refine ⟨⟨hW, ?_⟩, ⟨hC, ?_⟩⟩
  · rw [show weather_calculate_probabilities wind players =
        normalize_probs (players.map (fun p =>
          (p.name, weather_score wind p))) from rfl, hW]
    norm_num
  · rw [show combined_calculate_probabilities weights all_probs =
        normalize_probs (combined_raw weights all_probs) from rfl, hC]
    norm_num

/-- Witness for the amended C4: two players with base probability 1/2
in calm wind give a weather distribution summing to 1, and a single
sub-distribution with weight 1 gives a combined distribution summing
to 1. -/
theorem probabilities_sum_one_witness :
    (((weather_calculate_probabilities 0
        [⟨("A"), 1/2, 0⟩, ⟨("B"), 1/2, 0⟩]).map Prod.snd).sum = 1 ∧
     |((weather_calculate_probabilities 0
        [⟨("A"), 1/2, 0⟩, ⟨("B"), 1/2, 0⟩]).map Prod.snd).sum - 1| ≤
       1/1000000) ∧
    (((combined_calculate_probabilities [1] [[(("A"), (1:ℚ))]]).map
        Prod.snd).sum = 1 ∧
     |((combined_calculate_probabilities [1] [[(("A"), (1:ℚ))]]).map
        Prod.snd).sum - 1| ≤ 1/1000000) :=
  probabilities_sum_one 0 [⟨("A"), 1/2, 0⟩, ⟨("B"), 1/2, 0⟩]
    [1] [[(("A"), (1:ℚ))]]
    (by intro p hp; fin_cases hp <;> norm_num [weather_score, wind_threshold])
    ⟨⟨("A"), 1/2, 0⟩, by simp, by norm_num [weather_score, wind_threshold]⟩
    (by norm_num [combined_raw, all_players, probsGet, List.find?,
      List.dedup])
    (by norm_num [combined_raw, all_players, probsGet, List.find?,
      List.dedup])

end GolfGod
